import Mathlib

/-!
Shallow embedding of the vtdtr event broker
(src/sys/cddl/dev/vtdtr/vtdtr.c).

Machine integers (size_t) are modelled as Nat; all the arithmetic the
driver performs on them (comparisons, increments, bitwise and, shifts)
stays within Nat, and the constants below are the exact values the C
preprocessor produces on LP64 (sizeof(size_t) = 8).

The mutable kernel state (the red-black tree of queues keyed by pid, the
function-static one-shot flag in vtdtr_ioctl, and a ghost list recording
which event records have been freed by vtdtr_flush) is an explicit
VtdtrState threaded through the device operation functions.  The
red-black tree keyed by p_pid is modelled as a list of queues looked up
by pid; tree order carries no semantics in the driver (only RB_FIND,
RB_INSERT, RB_REMOVE and full iteration are used).
-/

/-- Constant BITS from vtdtr.c line 22. -/
def BITS : Nat := 8

/-- Width of size_t in bytes on the target (LP64). -/
def sizeof_size_t : Nat := 8

/-- Bit width of size_t, i.e. sizeof(size_t)*BITS = 64. -/
def size_t_bits : Nat := sizeof_size_t * BITS

/-- Constant MAX_BITSHIFT = ((size_t)1 << (sizeof(size_t)*BITS-1)) = 2^63. -/
def MAX_BITSHIFT : Nat := 1 <<< (sizeof_size_t * BITS - 1)

/-- Constant VTDTR_BITMASK = ((MAX_BITSHIFT - 1) | MAX_BITSHIFT) = 2^64-1. -/
def VTDTR_BITMASK : Nat := (MAX_BITSHIFT - 1) ||| MAX_BITSHIFT

/-- Constant VTDTR_DEFAULT_SIZE = (size_t)VTDTR_BITMASK. -/
def VTDTR_DEFAULT_SIZE : Nat := VTDTR_BITMASK

/-- Constant VTDTR_ALL_EVENTS = (size_t)VTDTR_BITMASK. -/
def VTDTR_ALL_EVENTS : Nat := VTDTR_BITMASK

/-- An event record (struct vtdtr_event).  The driver only reads its type
field; addr is the ghost allocation identity of the record (the C pointer
value), used to track which record a queue entry references and which
records vtdtr_flush frees. -/
structure VtdtrEvent where
  type : Nat
  addr : Nat
deriving DecidableEq, Repr

/-- A consumer queue (struct vtdtr_queue).  The STAILQ of vtdtr_qentry
nodes is the entries list (head of the list = head of the FIFO); each
entry holds the event record it references.  num_entries and max_size and
event_flags and drops mirror the size_t fields of the struct. -/
structure VtdtrQueue where
  proc : Nat
  entries : List VtdtrEvent
  max_size : Nat
  num_entries : Nat
  event_flags : Nat
  drops : Nat
deriving DecidableEq, Repr

/-- Configuration request (struct vtdtr_conf as used by vtdtr_ioctl). -/
structure VtdtrConf where
  max_size : Nat
  event_flags : Nat
deriving DecidableEq, Repr

/-- Whole-module state: the queue tree, the function-static one-shot flag
declared in vtdtr_ioctl (static int first = 1), and the ghost list of
record addresses freed by vtdtr_flush (in free order, with multiplicity). -/
structure VtdtrState where
  queues : List VtdtrQueue
  first : Bool
  freed : List Nat
deriving DecidableEq, Repr

/-- Function vtdtr_subscribed, lines 105-113: returns 0 when the guard
(e->type > MAX_BITSHIFT) fires, otherwise the C expression
q->event_flags & ((size_t)1 << e->type).  In C that shift is undefined
for e->type >= 64; here Nat shifts are total, so the Nat value is what a
mathematical left shift yields. -/
def vtdtr_subscribed (q : VtdtrQueue) (e : VtdtrEvent) : Nat :=
  if e.type > MAX_BITSHIFT then 0
  else q.event_flags &&& (1 <<< e.type)

/-- True exactly when vtdtr_subscribed reaches the shift expression
((size_t)1 << e->type), i.e. when the guard e->type > MAX_BITSHIFT does
not fire.  The shift amount is then e.type; a C shift of a 64-bit value
is well defined only for amounts strictly below size_t_bits. -/
def subscribedShiftPerformed (e : VtdtrEvent) : Bool :=
  if e.type > MAX_BITSHIFT then false else true

/-- Function vtdtr_construct_entry, lines 87-95: the queue entry stores
the very record pointer it is given (ent->event = e), not a copy. -/
def vtdtr_construct_entry (e : VtdtrEvent) : VtdtrEvent := e

/-- Outcome of offering one event to one queue (the loop body of
vtdtr_enqueue): the spec's Admitted / Dropped / Ignored classification. -/
inductive AdmitOutcome where
  | Admitted
  | Dropped
  | Ignored
deriving DecidableEq, Repr

/-- Body of the RB_FOREACH_SAFE loop of vtdtr_enqueue, lines 132-144,
acting on one queue: first the capacity test (num_entries >= max_size
increments drops and moves on), then the subscription test, then the
insertion at the tail with num_entries incremented. -/
def admitEvent (q : VtdtrQueue) (e : VtdtrEvent) : VtdtrQueue × AdmitOutcome :=
  if q.num_entries ≥ q.max_size then
    ({ q with drops := q.drops + 1 }, AdmitOutcome.Dropped)
  else if vtdtr_subscribed q e ≠ 0 then
    ({ q with
        entries := q.entries ++ [vtdtr_construct_entry e]
        num_entries := q.num_entries + 1 }, AdmitOutcome.Admitted)
  else
    (q, AdmitOutcome.Ignored)

/-- The RB_FOREACH_SAFE scan of vtdtr_enqueue over the queue tree:
every queue in the registry is passed through admitEvent once, in order. -/
def enqueueLoop (e : VtdtrEvent) : List VtdtrQueue → List VtdtrQueue
  | [] => []
  | q :: qs => (admitEvent q e).1 :: enqueueLoop e qs

/-- Function vtdtr_enqueue, lines 115-147: the producer-facing dispatch.
It only rewrites the queues; the one-shot flag and the ghost free list
are untouched (the broker keeps no event state of its own). -/
def vtdtr_enqueue (st : VtdtrState) (e : VtdtrEvent) : VtdtrState :=
  { st with queues := enqueueLoop e st.queues }

/-- RB_FIND on the queue tree keyed by p_pid (qtreecmp compares pids). -/
def findQueue (pid : Nat) : List VtdtrQueue → Option VtdtrQueue
  | [] => none
  | q :: qs => if q.proc = pid then some q else findQueue pid qs

/-- RB_REMOVE of the node found for pid: removes the first (with unique
pids, the only) queue owned by pid. -/
def removeQueue (pid : Nat) : List VtdtrQueue → List VtdtrQueue
  | [] => []
  | q :: qs => if q.proc = pid then qs else q :: removeQueue pid qs

/-- Result of vtdtr_open: 0, or the priv_check error, or EBUSY. -/
inductive OpenResult where
  | ok
  | eperm
  | ebusy
deriving DecidableEq, Repr

/-- Result of vtdtr_ioctl: 0, EBUSY, or ENOENT. -/
inductive IoctlResult where
  | ok
  | ebusy
  | enoent
deriving DecidableEq, Repr

/-- Result of vtdtr_close: 0 or ESRCH. -/
inductive CloseResult where
  | ok
  | esrch
deriving DecidableEq, Repr

/-- The queue state vtdtr_open builds at lines 247-256: malloc with
M_WAITOK|M_ZERO zero-fills the struct, then only proc, the mutex and the
empty STAILQ head are initialised — max_size, num_entries, event_flags
and drops all stay 0. -/
def mkQueue (pid : Nat) : VtdtrQueue :=
  { proc := pid, entries := [], max_size := 0, num_entries := 0,
    event_flags := 0, drops := 0 }

/-- Function vtdtr_open, lines 213-266: priv_check(td, PRIV_DTRACE_KERNEL)
first (modelled by the authorized flag), then RB_FIND for the caller's
pid (EBUSY when present), then the zero-filled queue is inserted. -/
def vtdtr_open (st : VtdtrState) (authorized : Bool) (pid : Nat) :
    VtdtrState × OpenResult :=
  if !authorized then (st, OpenResult.eperm)
  else
    match findQueue pid st.queues with
    | some _ => (st, OpenResult.ebusy)
    | none => ({ st with queues := st.queues ++ [mkQueue pid] }, OpenResult.ok)

/-- Command code standing for the VTDTRIOC_CONF ioctl (the exact numeric
value lives in the missing vtdtr.h header and is irrelevant: vtdtr_ioctl
only compares cmd against it). -/
def VTDTRIOC_CONF : Nat := 1

/-- The max_size local of vtdtr_ioctl after lines 168 and 194-195: it is
initialised to VTDTR_DEFAULT_SIZE and overwritten only by a non-zero
conf->max_size (conf == NULL keeps the default). -/
def conf_max_size : Option VtdtrConf → Nat
  | none => VTDTR_DEFAULT_SIZE
  | some c => if c.max_size ≠ 0 then c.max_size else VTDTR_DEFAULT_SIZE

/-- The event_flags local of vtdtr_ioctl after lines 169 and 196-197:
initialised to VTDTR_ALL_EVENTS and overwritten only by a non-zero
conf->event_flags. -/
def conf_event_flags : Option VtdtrConf → Nat
  | none => VTDTR_ALL_EVENTS
  | some c => if c.event_flags ≠ 0 then c.event_flags else VTDTR_ALL_EVENTS

/-- The assignment q->max_size = max_size; q->event_flags = event_flags
(lines 204-205) applied to the tree node owned by pid. -/
def setConf (pid ms ef : Nat) : List VtdtrQueue → List VtdtrQueue
  | [] => []
  | q :: qs =>
    (if q.proc = pid then { q with max_size := ms, event_flags := ef } else q)
      :: setConf pid ms ef qs

/-- Function vtdtr_ioctl, lines 155-211.  For VTDTRIOC_CONF: the
function-static gate is tested and cleared before the caller's queue is
looked up (lines 176-178), then RB_FIND (ENOENT when absent), then the
default-or-override configuration is stored.  Any other command falls
through the switch and returns 0. -/
def vtdtr_ioctl (st : VtdtrState) (cmd : Nat) (conf : Option VtdtrConf)
    (pid : Nat) : VtdtrState × IoctlResult :=
  if cmd = VTDTRIOC_CONF then
    if !st.first then (st, IoctlResult.ebusy)
    else
      let st1 : VtdtrState := { st with first := false }
      match findQueue pid st1.queues with
      | none => (st1, IoctlResult.enoent)
      | some _ =>
        ({ st1 with
           queues := setConf pid (conf_max_size conf) (conf_event_flags conf)
             st1.queues }, IoctlResult.ok)
  else (st, IoctlResult.ok)

/-- Function vtdtr_flush, lines 268-279, as ghost free accounting: the
STAILQ_FOREACH_SAFE loop frees ent->event for every entry, so the flush
of a queue emits the list of record addresses its entries reference. -/
def vtdtr_flush (q : VtdtrQueue) : List Nat :=
  q.entries.map VtdtrEvent.addr

/-- Function vtdtr_close, lines 281-305: RB_FIND (ESRCH when absent),
RB_REMOVE, then vtdtr_flush frees every entry's record. -/
def vtdtr_close (st : VtdtrState) (pid : Nat) : VtdtrState × CloseResult :=
  match findQueue pid st.queues with
  | none => (st, CloseResult.esrch)
  | some q =>
    ({ st with
        queues := removeQueue pid st.queues
        freed := st.freed ++ vtdtr_flush q }, CloseResult.ok)

/-- Function vtdtr_read, lines 149-153: the drain entry point is a stub,
`return (0);` — it transfers no records and leaves the state untouched,
whatever buffer capacity the caller supplies. -/
def vtdtr_read (st : VtdtrState) (_bufcap : Nat) :
    VtdtrState × List VtdtrEvent × Nat :=
  (st, [], 0)

/-- Module state right after MOD_LOAD: empty tree, gate still armed,
nothing freed. -/
def initState : VtdtrState := { queues := [], first := true, freed := [] }

/-- One device operation, performed with arbitrary arguments. -/
inductive Step : VtdtrState → VtdtrState → Prop where
  | devOpen (st : VtdtrState) (authorized : Bool) (pid : Nat) :
      Step st (vtdtr_open st authorized pid).1
  | devIoctl (st : VtdtrState) (cmd : Nat) (conf : Option VtdtrConf) (pid : Nat) :
      Step st (vtdtr_ioctl st cmd conf pid).1
  | devClose (st : VtdtrState) (pid : Nat) :
      Step st (vtdtr_close st pid).1
  | devEnqueue (st : VtdtrState) (e : VtdtrEvent) :
      Step st (vtdtr_enqueue st e)
  | devRead (st : VtdtrState) (bufcap : Nat) :
      Step st (vtdtr_read st bufcap).1

/-- States the module can reach from MOD_LOAD by device operations. -/
inductive Reachable : VtdtrState → Prop where
  | init : Reachable initState
  | step {st st' : VtdtrState} : Reachable st → Step st st' → Reachable st'

/-- Per-queue well-formedness: the num_entries counter agrees with the
FIFO, never exceeds max_size, and while the configure gate is still
armed the queue can only have its zero-filled capacity. -/
def QInv (first : Bool) (q : VtdtrQueue) : Prop :=
  q.num_entries = q.entries.length ∧
  q.num_entries ≤ q.max_size ∧
  (first = true → q.max_size = 0)

/-- Whole-state invariant: pids are pairwise distinct (the tree key is
unique) and every queue is well formed. -/
def StateInv (st : VtdtrState) : Prop :=
  (st.queues.map VtdtrQueue.proc).Pairwise (fun a b => a ≠ b) ∧
  ∀ q ∈ st.queues, QInv st.first q

/-- Concrete run: open by pid 1 from the initial state. -/
def exOpen : VtdtrState := (vtdtr_open initState true 1).1

/-- Concrete run: pid 1 then configures capacity 1, mask bit 0. -/
def exConf : VtdtrState :=
  (vtdtr_ioctl exOpen VTDTRIOC_CONF
    (some { max_size := 1, event_flags := 1 }) 1).1

/-- Concrete record of type 0 (subscribed under mask 1). -/
def exEvent0 : VtdtrEvent := { type := 0, addr := 0 }

/-- Concrete run: after dispatching exEvent0 the single queue is full. -/
def exFull : VtdtrState := vtdtr_enqueue exConf exEvent0

/-- The queue held by exFull (capacity 1, one entry, mask bit 0). -/
def exQfull : VtdtrQueue :=
  { proc := 1, entries := [exEvent0], max_size := 1, num_entries := 1,
    event_flags := 1, drops := 0 }

/-- Another concrete record of type 0, ghost address 9. -/
def exEvent9 : VtdtrEvent := { type := 0, addr := 9 }

/-- A below-capacity queue subscribed only to type 0. -/
def exQroom : VtdtrQueue :=
  { proc := 1, entries := [], max_size := 2, num_entries := 0,
    event_flags := 1, drops := 0 }

/-- Two queues, both with capacity 1 and mask bit 0 (what two consumers
that both configured successfully would hold). -/
def exTwo : VtdtrState :=
  { queues :=
      [ { proc := 1, entries := [], max_size := 1, num_entries := 0,
          event_flags := 1, drops := 0 },
        { proc := 2, entries := [], max_size := 1, num_entries := 0,
          event_flags := 1, drops := 0 } ],
    first := false, freed := [] }

/-- A single record, ghost address 7, dispatched once. -/
def exShared : VtdtrEvent := { type := 0, addr := 7 }

/-- exTwo after one dispatch of exShared: both queues admitted it. -/
def exTwoAfter : VtdtrState := vtdtr_enqueue exTwo exShared

/-- exTwoAfter after both consumers close. -/
def exClosed : VtdtrState := (vtdtr_close (vtdtr_close exTwoAfter 1).1 2).1

theorem reachable_exOpen : Reachable exOpen :=
  Reachable.step Reachable.init (Step.devOpen initState true 1)

theorem reachable_exConf : Reachable exConf :=
  Reachable.step reachable_exOpen
    (Step.devIoctl exOpen VTDTRIOC_CONF
      (some { max_size := 1, event_flags := 1 }) 1)

theorem reachable_exFull : Reachable exFull :=
  Reachable.step reachable_exConf (Step.devEnqueue exConf exEvent0)

lemma findQueue_none_of {pid : Nat} {l : List VtdtrQueue}
    (h : ∀ q ∈ l, q.proc ≠ pid) : findQueue pid l = none := by
  induction l with
  | nil => rfl
  | cons q qs ih =>
    have hq : q.proc ≠ pid := h q (List.mem_cons_self q qs)
    simp only [findQueue, if_neg hq]
    exact ih (fun r hr => h r (List.mem_cons_of_mem q hr))

lemma forall_of_findQueue_none {pid : Nat} {l : List VtdtrQueue}
    (h : findQueue pid l = none) : ∀ q ∈ l, q.proc ≠ pid := by
  induction l with
  | nil => intro q hq; cases hq
  | cons q qs ih =>
    intro r hr
    by_cases hq : q.proc = pid
    · simp only [findQueue, if_pos hq] at h; cases h
    · simp only [findQueue, if_neg hq] at h
      rcases List.mem_cons.1 hr with hr | hr
      · subst hr; exact hq
      · exact ih h r hr

lemma findQueue_append_some {pid : Nat} {l : List VtdtrQueue} {q : VtdtrQueue}
    (h : findQueue pid l = none) (hq : q.proc = pid) :
    findQueue pid (l ++ [q]) = some q := by
  induction l with
  | nil => simp only [List.nil_append, findQueue, if_pos hq]
  | cons r rs ih =>
    by_cases hr : r.proc = pid
    · simp only [findQueue, if_pos hr] at h; cases h
    · simp only [findQueue, if_neg hr] at h
      simp only [List.cons_append, findQueue, if_neg hr]
      exact ih h

lemma removeQueue_sublist (pid : Nat) (l : List VtdtrQueue) :
    List.Sublist (removeQueue pid l) l := by
  induction l with
  | nil => simp [removeQueue]
  | cons q qs ih =>
    simp only [removeQueue]
    split
    · exact List.sublist_cons_self q qs
    · exact List.Sublist.cons₂ q ih

lemma findQueue_removeQueue {pid : Nat} {l : List VtdtrQueue}
    (hp : (l.map VtdtrQueue.proc).Pairwise (fun a b => a ≠ b)) :
    findQueue pid (removeQueue pid l) = none := by
  induction l with
  | nil => rfl
  | cons q qs ih =>
    rw [List.map_cons, List.pairwise_cons] at hp
    obtain ⟨hhead, htail⟩ := hp
    simp only [removeQueue]
    split
    · next h =>
      apply findQueue_none_of
      intro r hr hrp
      have hne := hhead r.proc (List.mem_map_of_mem VtdtrQueue.proc hr)
      exact hne (h.trans hrp.symm)
    · next h =>
      simp only [findQueue, if_neg h]
      exact ih htail

lemma setConf_map_proc (pid ms ef : Nat) (l : List VtdtrQueue) :
    (setConf pid ms ef l).map VtdtrQueue.proc = l.map VtdtrQueue.proc := by
  induction l with
  | nil => rfl
  | cons q qs ih =>
    simp only [setConf, List.map_cons, ih]
    congr 1
    split <;> rfl

lemma mem_setConf {pid ms ef : Nat} {l : List VtdtrQueue} {q : VtdtrQueue}
    (h : q ∈ setConf pid ms ef l) :
    ∃ q0 ∈ l, q = q0 ∨ q = { q0 with max_size := ms, event_flags := ef } := by
  induction l with
  | nil => cases h
  | cons r rs ih =>
    simp only [setConf, List.mem_cons] at h
    rcases h with h | h
    · by_cases hr : r.proc = pid
      · rw [if_pos hr] at h
        exact ⟨r, List.mem_cons_self r rs, Or.inr h⟩
      · rw [if_neg hr] at h
        exact ⟨r, List.mem_cons_self r rs, Or.inl h⟩
    · obtain ⟨q0, hq0, hor⟩ := ih h
      exact ⟨q0, List.mem_cons_of_mem r hq0, hor⟩

lemma findQueue_setConf (pid ms ef : Nat) (l : List VtdtrQueue) :
    findQueue pid (setConf pid ms ef l) =
      (findQueue pid l).map
        (fun q => { q with max_size := ms, event_flags := ef }) := by
  induction l with
  | nil => rfl
  | cons q qs ih =>
    by_cases h : q.proc = pid
    · simp only [setConf, if_pos h, findQueue]
      rfl
    · simp only [setConf, if_neg h, findQueue]
      exact ih

lemma enqueueLoop_eq_map (e : VtdtrEvent) (l : List VtdtrQueue) :
    enqueueLoop e l = l.map (fun q => (admitEvent q e).1) := by
  induction l with
  | nil => rfl
  | cons q qs ih => simp only [enqueueLoop, List.map_cons, ih]

lemma admitEvent_proc (q : VtdtrQueue) (e : VtdtrEvent) :
    (admitEvent q e).1.proc = q.proc := by
  unfold admitEvent
  split
  · rfl
  · split
    · rfl
    · rfl

lemma admitEvent_QInv (first : Bool) (q : VtdtrQueue) (e : VtdtrEvent)
    (h : QInv first q) : QInv first (admitEvent q e).1 := by
  obtain ⟨h1, h2, h3⟩ := h
  unfold admitEvent
  split
  · exact ⟨h1, h2, h3⟩
  · next hfull =>
    split
    · refine ⟨?_, ?_, h3⟩
      · simp only [List.length_append, List.length_cons, List.length_nil, h1]
      · exact Nat.succ_le_of_lt (Nat.lt_of_not_le hfull)
    · exact ⟨h1, h2, h3⟩

lemma StateInv_open (st : VtdtrState) (auth : Bool) (pid : Nat)
    (h : StateInv st) : StateInv (vtdtr_open st auth pid).1 := by
  obtain ⟨hp, hq⟩ := h
  unfold vtdtr_open
  split
  · exact ⟨hp, hq⟩
  · cases hfind : findQueue pid st.queues with
    | some q => exact ⟨hp, hq⟩
    | none =>
      refine ⟨?_, ?_⟩
      · dsimp only
        rw [List.map_append, List.pairwise_append]
        refine ⟨hp, by simp, ?_⟩
        intro a ha b hb
        simp only [List.map_cons, List.map_nil, List.mem_singleton] at hb
        subst hb
        obtain ⟨q', hq', rfl⟩ := List.mem_map.1 ha
        exact forall_of_findQueue_none hfind q' hq'
      · intro q hqmem
        dsimp only at hqmem ⊢
        rcases List.mem_append.1 hqmem with hmem | hmem
        · exact hq q hmem
        · simp only [List.mem_singleton] at hmem
          subst hmem
          exact ⟨rfl, Nat.le_refl 0, fun _ => rfl⟩

lemma StateInv_ioctl (st : VtdtrState) (cmd : Nat) (conf : Option VtdtrConf)
    (pid : Nat) (h : StateInv st) : StateInv (vtdtr_ioctl st cmd conf pid).1 := by
  obtain ⟨hp, hq⟩ := h
  unfold vtdtr_ioctl
  split
  · split
    · exact ⟨hp, hq⟩
    · next hfirst =>
      have hfirst' : st.first = true := by
        cases hst : st.first
        · rw [hst] at hfirst; simp at hfirst
        · rfl
      dsimp only
      cases hfind : findQueue pid st.queues with
      | none =>
        refine ⟨hp, ?_⟩
        intro q hqmem
        obtain ⟨h1, h2, h3⟩ := hq q hqmem
        exact ⟨h1, h2, fun hff => by cases hff⟩
      | some q0 =>
        refine ⟨?_, ?_⟩
        · dsimp only
          rw [setConf_map_proc]
          exact hp
        · intro q hqmem
          dsimp only at hqmem ⊢
          obtain ⟨qbase, hqbase, hor⟩ := mem_setConf hqmem
          obtain ⟨h1, h2, h3⟩ := hq qbase hqbase
          have hms : qbase.max_size = 0 := h3 hfirst'
          rcases hor with rfl | rfl
          · exact ⟨h1, h2, fun hff => by cases hff⟩
          · refine ⟨h1, ?_, fun hff => by cases hff⟩
            have hz : qbase.num_entries = 0 := by
              have := h2
              rw [hms] at this
              exact Nat.le_zero.1 this
            simp only [hz]
            exact Nat.zero_le _
  · exact ⟨hp, hq⟩

lemma StateInv_close (st : VtdtrState) (pid : Nat)
    (h : StateInv st) : StateInv (vtdtr_close st pid).1 := by
  obtain ⟨hp, hq⟩ := h
  unfold vtdtr_close
  cases hfind : findQueue pid st.queues with
  | none => exact ⟨hp, hq⟩
  | some q0 =>
    refine ⟨?_, ?_⟩
    · dsimp only
      exact hp.sublist ((removeQueue_sublist pid st.queues).map VtdtrQueue.proc)
    · intro q hqmem
      dsimp only at hqmem ⊢
      exact hq q ((removeQueue_sublist pid st.queues).subset hqmem)

lemma StateInv_enqueue (st : VtdtrState) (e : VtdtrEvent)
    (h : StateInv st) : StateInv (vtdtr_enqueue st e) := by
  obtain ⟨hp, hq⟩ := h
  refine ⟨?_, ?_⟩
  · dsimp only [vtdtr_enqueue]
    rw [enqueueLoop_eq_map, List.map_map]
    have hcomp : (VtdtrQueue.proc ∘ fun q => (admitEvent q e).1) = VtdtrQueue.proc := by
      funext q
      exact admitEvent_proc q e
    rw [hcomp]
    exact hp
  · intro q hqmem
    dsimp only [vtdtr_enqueue] at hqmem ⊢
    rw [enqueueLoop_eq_map] at hqmem
    obtain ⟨q0, hq0, rfl⟩ := List.mem_map.1 hqmem
    exact admitEvent_QInv st.first q0 e (hq q0 hq0)

lemma StateInv_step {st st' : VtdtrState} (hs : Step st st')
    (h : StateInv st) : StateInv st' := by
  cases hs with
  | devOpen auth pid => exact StateInv_open st auth pid h
  | devIoctl cmd conf pid => exact StateInv_ioctl st cmd conf pid h
  | devClose pid => exact StateInv_close st pid h
  | devEnqueue e => exact StateInv_enqueue st e h
  | devRead bufcap => exact h

lemma StateInv_reachable {st : VtdtrState} (h : Reachable st) : StateInv st := by
  induction h with
  | init => exact ⟨List.Pairwise.nil, fun q hq => absurd hq (List.not_mem_nil q)⟩
  | step hr hs ih => exact StateInv_step hs ih

/-- C1 counterexample: an authorized open by pid 1 on the freshly loaded
module succeeds, but the registered queue has capacity 0 and subscription
mask 0 — not the default capacity VTDTR_DEFAULT_SIZE and not the
all-events mask — and a subsequently dispatched event of valid type 0 is
not admitted: the queue stays empty and the drop counter becomes 1. -/
theorem vtdtr_open_defaults_cex :
    (vtdtr_open initState true 1).2 = OpenResult.ok ∧
    ((vtdtr_open initState true 1).1.queues.map
      (fun q => (q.max_size, q.event_flags))) = [(0, 0)] ∧
    (0 : Nat) ≠ VTDTR_DEFAULT_SIZE ∧
    (0 : Nat) ≠ VTDTR_ALL_EVENTS ∧
    ((vtdtr_enqueue (vtdtr_open initState true 1).1 exEvent0).queues.map
      (fun q => (q.num_entries, q.drops))) = [(0, 1)] := by
  refine ⟨rfl, rfl, ?_, ?_, rfl⟩ <;> decide

/-- C1 (amended): after a successful Open by an authorized identity not
already owning a queue, the newly registered queue is the zero-filled
one — capacity 0 and empty subscription mask — so every subsequently
dispatched event is dropped (counted in drops), not admitted, until the
first Configure call installs a configuration. -/
theorem vtdtr_open_zero_config (st : VtdtrState) (pid : Nat)
    (h : findQueue pid st.queues = none) :
    (vtdtr_open st true pid).2 = OpenResult.ok ∧
    (vtdtr_open st true pid).1.queues = st.queues ++ [mkQueue pid] ∧
    (mkQueue pid).max_size = 0 ∧
    (mkQueue pid).event_flags = 0 ∧
    (∀ e : VtdtrEvent,
      admitEvent (mkQueue pid) e =
        ({ mkQueue pid with drops := 1 }, AdmitOutcome.Dropped)) := by
  unfold vtdtr_open
  rw [h]
  exact ⟨rfl, rfl, rfl, rfl, fun e => rfl⟩

/-- Witness for vtdtr_open_zero_config at the initial state and pid 1. -/
theorem vtdtr_open_zero_config_witness :
    (vtdtr_open initState true 1).2 = OpenResult.ok ∧
    (vtdtr_open initState true 1).1.queues = initState.queues ++ [mkQueue 1] ∧
    (mkQueue 1).max_size = 0 ∧
    (mkQueue 1).event_flags = 0 ∧
    admitEvent (mkQueue 1) exEvent0 =
      ({ mkQueue 1 with drops := 1 }, AdmitOutcome.Dropped) := by
  have h := vtdtr_open_zero_config initState 1 rfl
  exact ⟨h.1, h.2.1, h.2.2.1, h.2.2.2.1, h.2.2.2.2 exEvent0⟩

/-- C2 counterexample: exQfull is a reachable queue (it is the queue of
the reachable state exFull) that is at capacity; the event of type 1 has
its subscription bit unset (mask is 1), yet offering it increments the
drop counter — the capacity test of vtdtr_enqueue runs before the
subscription test. -/
theorem admit_unsubscribed_full_cex :
    vtdtr_subscribed exQfull { type := 1, addr := 5 } = 0 ∧
    exQfull.num_entries = exQfull.max_size ∧
    (admitEvent exQfull { type := 1, addr := 5 }).1.drops = exQfull.drops + 1 ∧
    Reachable exFull ∧ exQfull ∈ exFull.queues := by
  exact ⟨rfl, rfl, rfl, reachable_exFull, by decide⟩

/-- C2 (amended): an event whose type bit is unset in the queue's
subscription mask is neither inserted nor drop-counted provided the
queue's length is strictly below its capacity; a queue at capacity
increments its drop counter for every dispatched event, subscribed or
not. -/
theorem admit_unsubscribed_below_capacity (q : VtdtrQueue) (e : VtdtrEvent)
    (h1 : q.num_entries < q.max_size) (h2 : vtdtr_subscribed q e = 0) :
    admitEvent q e = (q, AdmitOutcome.Ignored) ∧
    (∀ qf : VtdtrQueue, ∀ ef : VtdtrEvent, qf.max_size ≤ qf.num_entries →
      admitEvent qf ef =
        ({ qf with drops := qf.drops + 1 }, AdmitOutcome.Dropped)) := by
  constructor
  · unfold admitEvent
    rw [if_neg (Nat.not_le.2 h1), if_neg (fun hc => hc h2)]
  · intro qf ef hle
    unfold admitEvent
    rw [if_pos hle]

/-- Witness for admit_unsubscribed_below_capacity: the below-capacity
queue exQroom ignores the type-1 event, and the full queue exQfull
drop-counts it. -/
theorem admit_unsubscribed_below_capacity_witness :
    admitEvent exQroom { type := 1, addr := 5 } = (exQroom, AdmitOutcome.Ignored) ∧
    admitEvent exQfull { type := 1, addr := 5 } =
      ({ exQfull with drops := exQfull.drops + 1 }, AdmitOutcome.Dropped) := by
  have h := admit_unsubscribed_below_capacity exQroom { type := 1, addr := 5 }
    (by decide) (by decide)
  exact ⟨h.1, h.2 exQfull { type := 1, addr := 5 } (by decide)⟩

/-- C3 (code bug): the guard of vtdtr_subscribed compares the event type
against the value MAX_BITSHIFT = 2^63 instead of the mask's bit width
size_t_bits = 64, so for every type from 64 up to 2^63 the guard does not
fire and the C shift ((size_t)1 << type) is evaluated with an amount that
is not below the bit width — undefined behavior the guard was meant to
prevent.  Concretely: the shift is performed for type 64 although 64 is
not a valid shift amount, it is performed even for type 2^63, and only
types strictly above 2^63 are diverted. -/
theorem vtdtr_subscribed_oob_shift :
    subscribedShiftPerformed { type := size_t_bits, addr := 0 } = true ∧
    ¬ size_t_bits < size_t_bits ∧
    subscribedShiftPerformed { type := MAX_BITSHIFT, addr := 0 } = true ∧
    size_t_bits < MAX_BITSHIFT ∧
    subscribedShiftPerformed { type := MAX_BITSHIFT + 1, addr := 0 } = false := by
  exact ⟨rfl, by decide, rfl, by decide, rfl⟩

/-- C4 counterexample: on the reachable state exOpen (pid 1 owns the
fresh zero-filled queue, gate still armed), a Configure with a zero
max_size field succeeds but changes the capacity from 0 to
VTDTR_DEFAULT_SIZE, and a Configure with a zero event_flags field changes
the mask from 0 to VTDTR_ALL_EVENTS — zero fields install the defaults,
they do not keep the current values. -/
theorem vtdtr_conf_zero_overrides_cex :
    exOpen.first = true ∧
    (findQueue 1 exOpen.queues).map VtdtrQueue.max_size = some 0 ∧
    (findQueue 1 exOpen.queues).map VtdtrQueue.event_flags = some 0 ∧
    (vtdtr_ioctl exOpen VTDTRIOC_CONF
      (some { max_size := 0, event_flags := 5 }) 1).2 = IoctlResult.ok ∧
    (findQueue 1 (vtdtr_ioctl exOpen VTDTRIOC_CONF
      (some { max_size := 0, event_flags := 5 }) 1).1.queues).map
        VtdtrQueue.max_size = some VTDTR_DEFAULT_SIZE ∧
    (findQueue 1 (vtdtr_ioctl exOpen VTDTRIOC_CONF
      (some { max_size := 5, event_flags := 0 }) 1).1.queues).map
        VtdtrQueue.event_flags = some VTDTR_ALL_EVENTS ∧
    VTDTR_DEFAULT_SIZE ≠ 0 ∧ VTDTR_ALL_EVENTS ≠ 0 := by
  exact ⟨rfl, rfl, rfl, rfl, rfl, rfl, by decide, by decide⟩

/-- C4 (amended): for the single Configure call that passes the one-shot
gate on an owned queue, a zero or omitted capacity field sets the
capacity to VTDTR_DEFAULT_SIZE (not the current value) and a zero or
omitted subscription-mask field sets the mask to VTDTR_ALL_EVENTS (not
the current value); non-zero fields are applied as given; the queue's
other fields are untouched. -/
lemma vtdtr_ioctl_conf_reduces (st : VtdtrState) (pid : Nat)
    (c : Option VtdtrConf) (h1 : st.first = true) (q0 : VtdtrQueue)
    (hq0 : findQueue pid st.queues = some q0) :
    vtdtr_ioctl st VTDTRIOC_CONF c pid =
      ({ st with
          first := false
          queues := setConf pid (conf_max_size c) (conf_event_flags c)
            st.queues }, IoctlResult.ok) := by
  have hneg : ¬ ((!st.first) = true) := by rw [h1]; decide
  unfold vtdtr_ioctl
  rw [if_pos rfl, if_neg hneg]
  dsimp only
  rw [hq0]

lemma conf_max_size_zero (ef : Nat) :
    conf_max_size (some { max_size := 0, event_flags := ef }) =
      VTDTR_DEFAULT_SIZE := by
  simp [conf_max_size]

lemma conf_event_flags_zero (ms : Nat) :
    conf_event_flags (some { max_size := ms, event_flags := 0 }) =
      VTDTR_ALL_EVENTS := by
  simp [conf_event_flags]

lemma vtdtr_ioctl_conf_ok (st : VtdtrState) (pid : Nat)
    (c : Option VtdtrConf) (h1 : st.first = true)
    (h2 : ∃ q0, findQueue pid st.queues = some q0) :
    (vtdtr_ioctl st VTDTRIOC_CONF c pid).2 = IoctlResult.ok := by
  obtain ⟨q0, hq0⟩ := h2
  rw [vtdtr_ioctl_conf_reduces st pid c h1 q0 hq0]

lemma vtdtr_ioctl_conf_queue (st : VtdtrState) (pid : Nat)
    (c : Option VtdtrConf) (h1 : st.first = true)
    (h2 : ∃ q0, findQueue pid st.queues = some q0) :
    findQueue pid (vtdtr_ioctl st VTDTRIOC_CONF c pid).1.queues =
      (findQueue pid st.queues).map
        (fun q => { q with max_size := conf_max_size c,
                           event_flags := conf_event_flags c }) := by
  obtain ⟨q0, hq0⟩ := h2
  rw [vtdtr_ioctl_conf_reduces st pid c h1 q0 hq0]
  exact findQueue_setConf pid (conf_max_size c) (conf_event_flags c) st.queues

theorem vtdtr_conf_zero_defaults (st : VtdtrState) (pid : Nat)
    (c : Option VtdtrConf) (h1 : st.first = true)
    (h2 : ∃ q0, findQueue pid st.queues = some q0) :
    (vtdtr_ioctl st VTDTRIOC_CONF c pid).2 = IoctlResult.ok ∧
    findQueue pid (vtdtr_ioctl st VTDTRIOC_CONF c pid).1.queues =
      (findQueue pid st.queues).map
        (fun q => { q with max_size := conf_max_size c,
                           event_flags := conf_event_flags c }) ∧
    (∀ ef : Nat, conf_max_size (some { max_size := 0, event_flags := ef }) =
      VTDTR_DEFAULT_SIZE) ∧
    (∀ ms : Nat, conf_event_flags (some { max_size := ms, event_flags := 0 }) =
      VTDTR_ALL_EVENTS) ∧
    conf_max_size none = VTDTR_DEFAULT_SIZE ∧
    conf_event_flags none = VTDTR_ALL_EVENTS :=
  ⟨vtdtr_ioctl_conf_ok st pid c h1 h2,
   vtdtr_ioctl_conf_queue st pid c h1 h2,
   fun ef => conf_max_size_zero ef, fun ms => conf_event_flags_zero ms,
   rfl, rfl⟩

/-- Witness for vtdtr_conf_zero_defaults: configuring the owned fresh
queue of exOpen with a zero max_size field. -/
theorem vtdtr_conf_zero_defaults_witness :
    (vtdtr_ioctl exOpen VTDTRIOC_CONF
      (some { max_size := 0, event_flags := 5 }) 1).2 = IoctlResult.ok ∧
    findQueue 1 (vtdtr_ioctl exOpen VTDTRIOC_CONF
      (some { max_size := 0, event_flags := 5 }) 1).1.queues =
      (findQueue 1 exOpen.queues).map
        (fun q => { q with
          max_size := conf_max_size (some { max_size := 0, event_flags := 5 }),
          event_flags :=
            conf_event_flags (some { max_size := 0, event_flags := 5 }) }) := by
  have h := vtdtr_conf_zero_defaults exOpen 1
    (some { max_size := 0, event_flags := 5 }) rfl ⟨mkQueue 1, rfl⟩
  exact ⟨h.1, h.2.1⟩

/-- C5 (code bug): the drain entry point vtdtr_read is an unimplemented
stub — for every state and every buffer capacity it reports success (0)
while transferring no records and leaving the whole state, in particular
every queue's entries and length, unchanged; on the reachable state
exFull its queue still holds one entry that a drain call does not
deliver. -/
theorem vtdtr_read_stub (st : VtdtrState) (bufcap : Nat) :
    vtdtr_read st bufcap = (st, [], 0) ∧
    exFull.queues.map VtdtrQueue.num_entries = [1] ∧
    vtdtr_read exFull 1 = (exFull, [], 0) := ⟨rfl, rfl, rfl⟩

/-- C6 (confirmed): in every reachable state every queue satisfies
num_entries ≤ max_size, and a queue whose length equals its capacity
answers every further admissible (in-range, subscribed) event by
incrementing drops by exactly one, leaving its entries, length and every
other field unchanged, with outcome Dropped. -/
theorem queue_bounds_and_full_drop (st : VtdtrState) (h : Reachable st) :
    (∀ q ∈ st.queues, q.num_entries ≤ q.max_size) ∧
    (∀ q ∈ st.queues, ∀ e : VtdtrEvent, q.num_entries = q.max_size →
      e.type < size_t_bits → vtdtr_subscribed q e ≠ 0 →
      (admitEvent q e).1 = { q with drops := q.drops + 1 } ∧
      (admitEvent q e).2 = AdmitOutcome.Dropped) := by
  have hi := StateInv_reachable h
  refine ⟨fun q hq => (hi.2 q hq).2.1, ?_⟩
  intro q hq e hfull htype hsub
  unfold admitEvent
  rw [if_pos (le_of_eq hfull.symm)]
  exact ⟨rfl, rfl⟩

/-- Witness for queue_bounds_and_full_drop at the reachable state exFull,
whose queue exQfull is at capacity, offered the subscribed in-range
event exEvent9. -/
theorem queue_bounds_and_full_drop_witness :
    exQfull.num_entries ≤ exQfull.max_size ∧
    (admitEvent exQfull exEvent9).1 = { exQfull with drops := exQfull.drops + 1 } ∧
    (admitEvent exQfull exEvent9).2 = AdmitOutcome.Dropped := by
  have h := queue_bounds_and_full_drop exFull reachable_exFull
  exact ⟨h.1 exQfull (by decide),
    (h.2 exQfull (by decide) exEvent9 rfl (by decide) (by decide)).1,
    (h.2 exQfull (by decide) exEvent9 rfl (by decide) (by decide)).2⟩

/-- C7 (confirmed): in every reachable state the queue owners' pids are
pairwise distinct (at most one queue per identity); an authorized open by
an identity that already owns a queue fails with EBUSY; and after that
identity closes, an authorized open for it succeeds. -/
theorem one_queue_per_identity (st : VtdtrState) (h : Reachable st) :
    (st.queues.map VtdtrQueue.proc).Pairwise (fun a b => a ≠ b) ∧
    (∀ pid : Nat, (∃ q ∈ st.queues, q.proc = pid) →
      (vtdtr_open st true pid).2 = OpenResult.ebusy) ∧
    (∀ pid : Nat, (vtdtr_open (vtdtr_close st pid).1 true pid).2 =
      OpenResult.ok) := by
  have hi := StateInv_reachable h
  refine ⟨hi.1, ?_, ?_⟩
  · rintro pid ⟨q, hq, hp⟩
    cases hfind : findQueue pid st.queues with
    | none => exact absurd hp (forall_of_findQueue_none hfind q hq)
    | some q0 =>
      unfold vtdtr_open
      rw [hfind]
      rfl
  · intro pid
    cases hfind : findQueue pid st.queues with
    | none =>
      unfold vtdtr_close
      rw [hfind]
      unfold vtdtr_open
      rw [hfind]
      rfl
    | some q0 =>
      unfold vtdtr_close
      rw [hfind]
      dsimp only
      unfold vtdtr_open
      rw [findQueue_removeQueue hi.1]
      rfl

/-- Witness for one_queue_per_identity at the reachable state exFull:
pid 1 owns a queue, so a second open is EBUSY, and open after close
succeeds. -/
theorem one_queue_per_identity_witness :
    (exFull.queues.map VtdtrQueue.proc).Pairwise (fun a b => a ≠ b) ∧
    (vtdtr_open exFull true 1).2 = OpenResult.ebusy ∧
    (vtdtr_open (vtdtr_close exFull 1).1 true 1).2 = OpenResult.ok := by
  have h := one_queue_per_identity exFull reachable_exFull
  exact ⟨h.1, h.2.1 1 ⟨exQfull, by decide, rfl⟩, h.2.2 1⟩

/-- C8 (code bug): one record (ghost address 7) dispatched once while two
queues are registered and subscribed is admitted by both, and both
entries reference the same record address — vtdtr_construct_entry stores
the shared pointer, not a copy.  When both consumers close,
vtdtr_flush frees that same record in each queue's teardown: the ghost
free list ends as [7, 7], the one allocation destroyed twice.  (And a
record admitted by zero queues is referenced by no entry, so no flush
ever frees it.) -/
theorem shared_record_double_free :
    (exTwoAfter.queues.map (fun q => q.entries.map VtdtrEvent.addr)) =
      [[7], [7]] ∧
    (vtdtr_close exTwoAfter 1).2 = CloseResult.ok ∧
    (vtdtr_close (vtdtr_close exTwoAfter 1).1 2).2 = CloseResult.ok ∧
    exClosed.freed = [7, 7] ∧
    List.count 7 exClosed.freed = 2 := by
  exact ⟨rfl, rfl, rfl, rfl, rfl⟩

/-- C9 (confirmed): one dispatch rewrites the registry by passing every
registered queue through admitEvent exactly once (the new queue list is
the pointwise admitEvent image of the old, in registry order, of the
same length); the broker state outside the queues — the gate and the
ghost free list — is untouched, i.e. the broker buffers nothing; and
each offer yields one of the three outcomes Admitted, Dropped, Ignored. -/
theorem vtdtr_enqueue_fanout (st : VtdtrState) (e : VtdtrEvent) :
    (vtdtr_enqueue st e).queues = st.queues.map (fun q => (admitEvent q e).1) ∧
    (vtdtr_enqueue st e).queues.length = st.queues.length ∧
    (vtdtr_enqueue st e).first = st.first ∧
    (vtdtr_enqueue st e).freed = st.freed ∧
    (∀ q : VtdtrQueue, (admitEvent q e).2 = AdmitOutcome.Admitted ∨
      (admitEvent q e).2 = AdmitOutcome.Dropped ∨
      (admitEvent q e).2 = AdmitOutcome.Ignored) := by
  refine ⟨enqueueLoop_eq_map e st.queues, ?_, rfl, rfl, ?_⟩
  · show (enqueueLoop e st.queues).length = st.queues.length
    rw [enqueueLoop_eq_map e st.queues, List.length_map]
  · intro q
    unfold admitEvent
    split
    · exact Or.inr (Or.inl rfl)
    · split
      · exact Or.inl rfl
      · exact Or.inr (Or.inr rfl)

lemma open_first (st : VtdtrState) (auth : Bool) (pid : Nat) :
    (vtdtr_open st auth pid).1.first = st.first := by
  unfold vtdtr_open
  split
  · rfl
  · split
    · rfl
    · rfl

lemma close_first (st : VtdtrState) (pid : Nat) :
    (vtdtr_close st pid).1.first = st.first := by
  unfold vtdtr_close
  split
  · rfl
  · rfl

lemma ioctl_first_mono (st : VtdtrState) (cmd : Nat) (c : Option VtdtrConf)
    (pid : Nat) (h : st.first = false) :
    (vtdtr_ioctl st cmd c pid).1.first = false := by
  unfold vtdtr_ioctl
  split
  · have hb : (!st.first) = true := by rw [h]; rfl
    rw [if_pos hb]
    exact h
  · exact h

lemma step_first_mono {s s' : VtdtrState} (hs : Step s s')
    (hf : s.first = false) : s'.first = false := by
  cases hs with
  | devOpen auth pid => rw [open_first]; exact hf
  | devIoctl cmd conf pid => exact ioctl_first_mono s cmd conf pid hf
  | devClose pid => rw [close_first]; exact hf
  | devEnqueue e => exact hf
  | devRead bufcap => exact hf

lemma vtdtr_ioctl_enoent_reduces (st : VtdtrState) (pid : Nat)
    (c : Option VtdtrConf) (h1 : st.first = true)
    (h2 : findQueue pid st.queues = none) :
    vtdtr_ioctl st VTDTRIOC_CONF c pid =
      ({ st with first := false }, IoctlResult.enoent) := by
  have hneg : ¬ ((!st.first) = true) := by rw [h1]; decide
  unfold vtdtr_ioctl
  rw [if_pos rfl, if_neg hneg]
  dsimp only
  rw [h2]

lemma vtdtr_ioctl_gate_closed (st : VtdtrState) (pid : Nat)
    (c : Option VtdtrConf) (h : st.first = false) :
    vtdtr_ioctl st VTDTRIOC_CONF c pid = (st, IoctlResult.ebusy) := by
  have hb : (!st.first) = true := by rw [h]; rfl
  unfold vtdtr_ioctl
  rw [if_pos rfl, if_pos hb]

/-- C10 (confirmed): the one-shot gate of vtdtr_ioctl is consumed before
the caller's queue is looked up: a first VTDTRIOC_CONF call by an
identity owning no queue fails with ENOENT, leaves every queue and the
free list unchanged, yet clears the gate; once the gate is clear, every
VTDTRIOC_CONF call by any process returns EBUSY and changes nothing, and
no device operation ever re-arms the gate — Configure can never succeed
again. -/
theorem conf_gate_consumed_before_lookup (st : VtdtrState) (pid : Nat)
    (c : Option VtdtrConf) (h1 : st.first = true)
    (h2 : findQueue pid st.queues = none) :
    (vtdtr_ioctl st VTDTRIOC_CONF c pid).2 = IoctlResult.enoent ∧
    (vtdtr_ioctl st VTDTRIOC_CONF c pid).1.queues = st.queues ∧
    (vtdtr_ioctl st VTDTRIOC_CONF c pid).1.freed = st.freed ∧
    (vtdtr_ioctl st VTDTRIOC_CONF c pid).1.first = false ∧
    (∀ st2 : VtdtrState, ∀ pid2 : Nat, ∀ c2 : Option VtdtrConf,
      st2.first = false →
      (vtdtr_ioctl st2 VTDTRIOC_CONF c2 pid2).2 = IoctlResult.ebusy ∧
      (vtdtr_ioctl st2 VTDTRIOC_CONF c2 pid2).1 = st2) ∧
    (∀ s s' : VtdtrState, Step s s' → s.first = false → s'.first = false) := by
  have hred := vtdtr_ioctl_enoent_reduces st pid c h1 h2
  refine ⟨?_, ?_, ?_, ?_, ?_, fun s s' hs hf => step_first_mono hs hf⟩
  · rw [hred]
  · rw [hred]
  · rw [hred]
  · rw [hred]
  · intro st2 pid2 c2 hf
    have hgate := vtdtr_ioctl_gate_closed st2 pid2 c2 hf
    exact ⟨by rw [hgate], by rw [hgate]⟩

/-- Witness for conf_gate_consumed_before_lookup: on exOpen (gate armed,
only pid 1 owns a queue) a first Configure by pid 2 is ENOENT, consumes
the gate, and a following Configure by pid 1 — the queue owner — is
EBUSY. -/
theorem conf_gate_consumed_before_lookup_witness :
    (vtdtr_ioctl exOpen VTDTRIOC_CONF
      (some { max_size := 3, event_flags := 3 }) 2).2 = IoctlResult.enoent ∧
    (vtdtr_ioctl exOpen VTDTRIOC_CONF
      (some { max_size := 3, event_flags := 3 }) 2).1.queues = exOpen.queues ∧
    (vtdtr_ioctl exOpen VTDTRIOC_CONF
      (some { max_size := 3, event_flags := 3 }) 2).1.first = false ∧
    (vtdtr_ioctl (vtdtr_ioctl exOpen VTDTRIOC_CONF
        (some { max_size := 3, event_flags := 3 }) 2).1
      VTDTRIOC_CONF (some { max_size := 3, event_flags := 3 }) 1).2 =
        IoctlResult.ebusy := by
  have h := conf_gate_consumed_before_lookup exOpen 2
    (some { max_size := 3, event_flags := 3 }) rfl rfl
  refine ⟨h.1, h.2.1, h.2.2.2.1, ?_⟩
  exact (h.2.2.2.2.1 _ 1 (some { max_size := 3, event_flags := 3 })
    h.2.2.2.1).1
